import Mathlib

/-!
Verification development for the LineageAtlas genealogy application.

This file gives a shallow embedding, in Lean 4, of the ingestion and
normalization pipeline of the repository: the GEDCOM line parser and CSV
parser of the client (`parseGedcom`, `parseCsv`), the server-side upload
pipeline built around `geocodeLocation` and the route handlers, the
narrative builder `generateStoryFromEvents`, and the in-memory CRUD store
`MemStorage`.  JavaScript-specific behaviour (truthiness, `parseInt`,
`String.prototype.includes`, `split`, object spread, stable `sort`) is
modelled by explicit Lean functions defined below.  Fallible JavaScript
code (property access on `undefined` raising a `TypeError`) is modelled
with `Except Unit`.
-/

namespace LineageAtlas

/-! ## Models of JavaScript primitives -/

/-- Value of a hexadecimal digit character, if it is one. -/
def hexDigitVal (c : Char) : Option Nat :=
  if c.isDigit then some (c.toNat - 48)
  else if ('a' ≤ c ∧ c ≤ 'f') then some (c.toNat - 87)
  else if ('A' ≤ c ∧ c ≤ 'F') then some (c.toNat - 55)
  else none

/-- Fold a list of digit values in a given base into a number. -/
def digitsToNat (base : Nat) (ds : List Nat) : Nat :=
  ds.foldl (fun a d => a * base + d) 0

/-- Parse a maximal leading run of decimal digits; `none` if there is none. -/
def parseDecDigits (cs : List Char) : Option Nat :=
  let ds := cs.takeWhile Char.isDigit
  if ds.isEmpty then none
  else some (digitsToNat 10 (ds.map (fun c => c.toNat - 48)))

/-- Model of JavaScript `parseInt(s)` with no radix argument: skip leading
whitespace, read an optional sign, then either a `0x`/`0X` hexadecimal
literal or a maximal run of decimal digits; `none` models `NaN`. -/
def jsParseInt (s : String) : Option Int :=
  let cs0 := s.toList.dropWhile Char.isWhitespace
  let sign : Int := match cs0 with
    | c :: _ => if c = '-' then -1 else 1
    | [] => 1
  let cs1 : List Char := match cs0 with
    | c :: rest => if c = '-' ∨ c = '+' then rest else cs0
    | [] => []
  let hexTail : Option (List Char) := match cs1 with
    | c0 :: c1 :: rest => if c0 = '0' ∧ (c1 = 'x' ∨ c1 = 'X') then some rest else none
    | _ => none
  match hexTail with
  | some rest =>
    let hx := rest.takeWhile (fun c => (hexDigitVal c).isSome)
    if hx.isEmpty then none
    else some (sign * (digitsToNat 16 (hx.filterMap hexDigitVal) : Nat))
  | none => (parseDecDigits cs1).map (fun n => sign * (n : Nat))

/-- Model of JavaScript `s.includes(pat)`: substring containment. -/
def jsIncludes (s pat : String) : Bool :=
  s.toList.tails.any (fun t => pat.toList.isPrefixOf t)

/-- Split a character list at every occurrence of the separator (the model
of JavaScript `s.split(sep)` for a single-character separator, which is the
only kind this codebase uses). -/
def splitOnChar (sep : Char) : List Char → List (List Char)
  | [] => [[]]
  | c :: cs =>
    let r := splitOnChar sep cs
    if c = sep then [] :: r
    else match r with
      | [] => [[c]]
      | g :: gs => (c :: g) :: gs

/-- JavaScript `s.split(sep)` for a one-character separator. -/
def jsSplit (sep : Char) (s : String) : List String :=
  (splitOnChar sep s.toList).map String.mk

/-- JavaScript `s.trim()`: strip leading and trailing whitespace. -/
def jsTrim (s : String) : String :=
  String.mk (((s.toList.dropWhile Char.isWhitespace).reverse.dropWhile
    Char.isWhitespace).reverse)

/-- JavaScript `s.toLowerCase()` (ASCII letters, which is all the header
names use). -/
def jsToLower (s : String) : String :=
  String.mk (s.toList.map Char.toLower)

/-- JavaScript `parts.join(sep)`. -/
def joinWith (sep : String) : List String → String
  | [] => ""
  | [x] => x
  | x :: xs => x ++ sep ++ joinWith sep xs

/-- Model of `value.replace(/\x7b slash \x7d/g, "")` as used by the GEDCOM
name handler: every `/` character is removed. -/
def stripSlashes (s : String) : String :=
  String.mk (s.toList.filter (fun c => c ≠ '/'))

/-- Model of the JavaScript string disjunction `a || b` on strings, where
the empty string is falsy. -/
def jsOr (a b : String) : String :=
  if a ≠ "" then a else b

/-- Model of `a || b || undefined` on strings: the first non-empty string,
or `none` when both are empty. -/
def jsOrOpt (a b : String) : Option String :=
  if a ≠ "" then some a else if b ≠ "" then some b else none

/-- Model of `s || undefined` on a string. -/
def jsStrOpt (s : String) : Option String :=
  if s ≠ "" then some s else none

/-! ## Data model of the client GEDCOM/CSV parser (part_001) -/

/-- A GEDCOM event accumulated while scanning level-1/level-2 lines. -/
structure GedcomEvent where
  type : String
  date : Option String := none
  place : Option String := none
  description : Option String := none
  deriving DecidableEq, Repr

/-- An individual record produced by `parseGedcom` or `parseCsv`. -/
structure GedcomIndividual where
  id : String
  name : String
  birthDate : Option String := none
  deathDate : Option String := none
  birthPlace : Option String := none
  deathPlace : Option String := none
  notes : Option String := none
  events : List GedcomEvent := []
  deriving DecidableEq, Repr

/-- A family record produced by `parseGedcom`. -/
structure GedcomFamily where
  id : String
  husband : Option String := none
  wife : Option String := none
  children : List String := []
  marriageDate : Option String := none
  marriagePlace : Option String := none
  deriving DecidableEq, Repr

/-- The result record of `parseGedcom`. -/
structure ParsedGedcomData where
  individuals : List GedcomIndividual
  families : List GedcomFamily
  events : List GedcomEvent
  deriving DecidableEq, Repr

/-- The parse context of the GEDCOM scanner. -/
inductive Ctx where
  | individual
  | family
  deriving DecidableEq, Repr

/-- The mutable scanner state of `parseGedcom`: the three output lists and
the nullable `currentContext` / `currentIndividual` / `currentFamily` /
`currentEvent` variables. -/
structure GedcomState where
  individuals : List GedcomIndividual
  families : List GedcomFamily
  events : List GedcomEvent
  currentContext : Option Ctx
  currentIndividual : Option GedcomIndividual
  currentFamily : Option GedcomFamily
  currentEvent : Option GedcomEvent
  deriving DecidableEq, Repr

/-- The initial scanner state. -/
def initState : GedcomState :=
  ⟨[], [], [], none, none, none, none⟩

/-- Handler for a level-0 GEDCOM line with tag token `t`: flush any pending
individual or family with a non-empty id, then open a new context according
to whether `t` contains `INDI` or `FAM`.  Note that the branches only
overwrite the variables they assign: opening a family does not clear
`currentIndividual` and vice versa. -/
def level0Step (s : GedcomState) (t : String) : GedcomState :=
  let s1 := match s.currentIndividual with
    | some ci => if ci.id ≠ "" then { s with individuals := s.individuals ++ [ci] } else s
    | none => s
  let s2 := match s1.currentFamily with
    | some cf => if cf.id ≠ "" then { s1 with families := s1.families ++ [cf] } else s1
    | none => s1
  if jsIncludes t "INDI" then
    { s2 with currentContext := some Ctx.individual,
              currentIndividual := some { id := t, name := "", events := [] } }
  else if jsIncludes t "FAM" then
    { s2 with currentContext := some Ctx.family,
              currentFamily := some { id := t, children := [] } }
  else
    { s2 with currentContext := none, currentIndividual := none, currentFamily := none }

/-- Handler for a level-1 GEDCOM line, dispatching on the current context
and the tag (`tag` is `none` when the line had no second token). -/
def level1Step (s : GedcomState) (tag : Option String) (value : String) : GedcomState :=
  if s.currentContext = some Ctx.individual then
    match s.currentIndividual with
    | some ci =>
      if tag = some "NAME" then
        { s with currentIndividual := some { ci with name := stripSlashes value } }
      else if tag = some "BIRT" then { s with currentEvent := some { type := "birth" } }
      else if tag = some "DEAT" then { s with currentEvent := some { type := "death" } }
      else if tag = some "RESI" then { s with currentEvent := some { type := "residence" } }
      else if tag = some "NOTE" then
        { s with currentIndividual := some { ci with notes := some value } }
      else s
    | none => s
  else if s.currentContext = some Ctx.family then
    match s.currentFamily with
    | some cf =>
      if tag = some "HUSB" then { s with currentFamily := some { cf with husband := some value } }
      else if tag = some "WIFE" then { s with currentFamily := some { cf with wife := some value } }
      else if tag = some "CHIL" then
        { s with currentFamily := some { cf with children := cf.children ++ [value] } }
      else if tag = some "MARR" then { s with currentEvent := some { type := "marriage" } }
      else s
    | none => s
  else s

/-- Attach a closed event to an individual: copy date/place into the
top-level birth or death fields when the event type warrants it, and append
the event to the individual's event list. -/
def attachEvent (ci : GedcomIndividual) (e : GedcomEvent) : GedcomIndividual :=
  let ci1 :=
    if e.type = "birth" then { ci with birthDate := e.date, birthPlace := e.place }
    else if e.type = "death" then { ci with deathDate := e.date, deathPlace := e.place }
    else ci
  { ci1 with events := ci1.events ++ [e] }

/-- Close the pending event `e`: attach it to the current individual (or
copy marriage data to the current family), append it to the flat event
list, and clear the `currentEvent` slot. -/
def closeEvent (s : GedcomState) (e : GedcomEvent) : GedcomState :=
  let s1 :=
    if s.currentContext = some Ctx.individual then
      match s.currentIndividual with
      | some ci => { s with currentIndividual := some (attachEvent ci e) }
      | none => s
    else if s.currentContext = some Ctx.family then
      match s.currentFamily with
      | some cf =>
        if e.type = "marriage" then
          { s with currentFamily := some { cf with marriageDate := e.date, marriagePlace := e.place } }
        else s
      | none => s
    else s
  { s1 with events := s1.events ++ [e], currentEvent := none }

/-- The assignment half of the level-2 handler: a `DATE` or `PLAC` tag
writes the line value into the pending event. -/
def level2Assign (s : GedcomState) (tag : Option String) (value : String) : GedcomState :=
  match s.currentEvent with
  | some e =>
    if tag = some "DATE" then { s with currentEvent := some { e with date := some value } }
    else if tag = some "PLAC" then { s with currentEvent := some { e with place := some value } }
    else s
  | none => s

/-- Handler for a level-2 GEDCOM line: a `DATE` or `PLAC` tag assigns the
corresponding field of the pending event, and immediately afterwards the
pending event (if any) is closed. -/
def level2Step (s : GedcomState) (tag : Option String) (value : String) : GedcomState :=
  let s1 := level2Assign s tag value
  match s1.currentEvent with
  | some e =>
    if tag = some "DATE" ∨ tag = some "PLAC" then closeEvent s1 e else s1
  | none => s1

/-- Dispatch one parsed GEDCOM line.  A level-0 line whose tag token is
missing models the JavaScript `TypeError` raised by
`tag.includes(...)` on `undefined`, hence `Except.error`. -/
def processFields (s : GedcomState) (level : Option Int) (tag : Option String)
    (value : String) : Except Unit GedcomState :=
  match level with
  | none => Except.ok s
  | some l =>
    if l = 0 then
      match tag with
      | none => Except.error ()
      | some t => Except.ok (level0Step s t)
    else if l = 1 then Except.ok (level1Step s tag value)
    else if l = 2 then Except.ok (level2Step s tag value)
    else Except.ok s

/-- The level of a raw GEDCOM line: `parseInt` of its first
space-separated token. -/
def lineLevel (line : String) : Option Int :=
  jsParseInt ((jsSplit ' ' line).headD "")

/-- The tag of a raw GEDCOM line: its second space-separated token, if
any. -/
def lineTag (line : String) : Option String :=
  (jsSplit ' ' line).get? 1

/-- The value of a raw GEDCOM line: the remaining tokens re-joined with
single spaces (`parts.slice(2).join(" ")`). -/
def lineValue (line : String) : String :=
  joinWith " " ((jsSplit ' ' line).drop 2)

/-- Process one raw GEDCOM line: split on single spaces, parse the level
token with `parseInt`, take the second token as tag and re-join the rest as
the value. -/
def processLine (s : GedcomState) (line : String) : Except Unit GedcomState :=
  processFields s (lineLevel line) (lineTag line) (lineValue line)

/-- Run the scanner over a list of lines, stopping at the first raised
error, exactly as the `for` loop of `parseGedcom` would. -/
def runLines : GedcomState → List String → Except Unit GedcomState
  | s, [] => Except.ok s
  | s, l :: ls =>
    match processLine s l with
    | Except.ok s' => runLines s' ls
    | Except.error e => Except.error e

/-- Final flush of `parseGedcom`: emit any still-open individual or family
with a non-empty id. -/
def finalizeState (s : GedcomState) : ParsedGedcomData :=
  let inds := match s.currentIndividual with
    | some ci => if ci.id ≠ "" then s.individuals ++ [ci] else s.individuals
    | none => s.individuals
  let fams := match s.currentFamily with
    | some cf => if cf.id ≠ "" then s.families ++ [cf] else s.families
    | none => s.families
  ⟨inds, fams, s.events⟩

/-- The line preprocessing of `parseGedcom`: split the input on newlines,
trim each line and drop the empty ones. -/
def gedcomLines (text : String) : List String :=
  ((jsSplit '\n' text).map jsTrim).filter (fun l => l ≠ "")

/-- Shallow embedding of `parseGedcom` from the client: scan all lines and
flush the final context.  An `Except.error` result models an uncaught
JavaScript `TypeError`. -/
def parseGedcom (text : String) : Except Unit ParsedGedcomData :=
  (runLines initState (gedcomLines text)).map finalizeState

/-- The id that a line contributes as a level-0 individual block opener:
its tag, when the line has level 0 and a tag containing `INDI`. -/
def lineIndiTag (line : String) : Option String :=
  if lineLevel line = some 0 then
    match lineTag line with
    | some t => if jsIncludes t "INDI" then some t else none
    | none => none
  else none

/-- The ids of the level-0 individual block openers of a GEDCOM input, in
file order. -/
def indiTags (text : String) : List String :=
  (gedcomLines text).filterMap lineIndiTag

/-- The number of level-0 individual blocks of a GEDCOM input. -/
def indiBlockCount (text : String) : Nat :=
  (indiTags text).length

/-- A line is safe for the level-0 handler: if its level is 0 it carries a
tag token (otherwise the handler raises a `TypeError`). -/
def level0HasTag (line : String) : Bool :=
  if lineLevel line = some 0 then (lineTag line).isSome else true

/-- A line does not open a family block: if its level is 0, its tag does
not contain `FAM`. -/
def level0NoFam (line : String) : Bool :=
  if lineLevel line = some 0 then
    match lineTag line with
    | some t => !(jsIncludes t "FAM")
    | none => true
  else true

/-- The id of the pending individual of a scanner state, when it would be
flushed (non-empty id). -/
def pendingIds (s : GedcomState) : List String :=
  match s.currentIndividual with
  | some ci => if ci.id ≠ "" then [ci.id] else []
  | none => []

/-- The ids of all individuals a state would deliver: the emitted ones plus
the flushable pending one. -/
def finIds (s : GedcomState) : List String :=
  s.individuals.map GedcomIndividual.id ++ pendingIds s

/-! ## CSV parser of the client (`parseCsv`, part_001) -/

/-- Model of the JavaScript row object built by
`headers.forEach((header, index) => row[header] = values[index] || "")`:
the value of key `k` comes from the last header equal to `k`, with missing
values defaulting to the empty string. -/
def rowPairs : List String → Nat → List String → List (String × String)
  | [], _, _ => []
  | h :: hs, i, values => (h, values.getD i "") :: rowPairs hs (i + 1) values

/-- Look up key `k` in the row object: the value of the last header equal
to `k` (later assignments overwrite), or the empty string. -/
def rowGet (headers values : List String) (k : String) : String :=
  (rowPairs headers 0 values).foldl (fun acc p => if p.1 = k then p.2 else acc) ""

/-- One iteration of the `parseCsv` loop: build the row object, skip the
row when its `name` entry is empty, otherwise construct the individual with
the alias-merged fields and the synthesized birth/death events. -/
def csvRowIndividual (headers values : List String) (i : Nat) : Option GedcomIndividual :=
  let row := rowGet headers values
  if row "name" = "" then none
  else
    let birthDate := jsOrOpt (row "birth_date") (row "birthdate")
    let deathDate := jsOrOpt (row "death_date") (row "deathdate")
    let birthPlace := jsOrOpt (row "birth_place") (row "birthplace")
    let deathPlace := jsOrOpt (row "death_place") (row "deathplace")
    let birthEvents : List GedcomEvent :=
      if birthDate.isSome || birthPlace.isSome then
        [{ type := "birth", date := birthDate, place := birthPlace,
           description := some ("Born in " ++ birthPlace.getD "unknown location") }]
      else []
    let deathEvents : List GedcomEvent :=
      if deathDate.isSome || deathPlace.isSome then
        [{ type := "death", date := deathDate, place := deathPlace,
           description := some ("Died in " ++ deathPlace.getD "unknown location") }]
      else []
    some { id := "I" ++ toString i, name := row "name",
           birthDate := birthDate, deathDate := deathDate,
           birthPlace := birthPlace, deathPlace := deathPlace,
           notes := jsStrOpt (row "notes"),
           events := birthEvents ++ deathEvents }

/-- Line preprocessing shared by the CSV parser and the CSV upload handler:
split on newlines and keep the lines whose trimmed form is non-empty (the
lines themselves are not trimmed). -/
def csvLines (csvText : String) : List String :=
  (jsSplit '\n' csvText).filter (fun l => jsTrim l ≠ "")

/-- Header row of a CSV input: first line split on commas, each column name
trimmed and lowercased. -/
def csvHeaders (csvText : String) : List String :=
  (jsSplit ',' ((csvLines csvText).headD "")).map (fun h => jsToLower (jsTrim h))

/-- Shallow embedding of `parseCsv` from the client.  Rows are numbered
from 1 (the synthetic ids are `I1`, `I2`, ...). -/
def parseCsv (csvText : String) : List GedcomIndividual :=
  let lines := csvLines csvText
  if lines.length < 2 then []
  else
    let headers := csvHeaders csvText
    ((lines.drop 1).enum).filterMap (fun p =>
      csvRowIndividual headers ((jsSplit ',' p.2).map jsTrim) (p.1 + 1))

/-! ## Server upload pipeline (part_000, `registerRoutes`)

The two upload handlers iterate over parsed records, create a family-member
record per named record, and for each truthy birth/death place call
`geocodeLocation`; a `some` result yields one location and one event, a
`none` result (collaborator error or zero results) yields nothing.  The
models below record the insert payloads in creation order.  The
storage-assigned UUID cross-references (`member.id`, `location.id` on the
created events) and `createdAt` timestamps are omitted from the payload
records; coordinates returned by the external geocoder are opaque numbers,
modelled as integers. -/

/-- Outcome function of `geocodeLocation`: `none` models both a collaborator
error (caught and turned into `null`) and an empty result list. -/
def GeoOracle := String → Option (Int × Int)

/-- A member record as produced by the server-side `parseGedcomData`
(fields are `null` or strings; `notes` starts as the empty string). -/
structure ParsedMember where
  name : String
  birthDate : Option String := none
  deathDate : Option String := none
  birthPlace : Option String := none
  deathPlace : Option String := none
  notes : String := ""
  photos : List String := []
  deriving DecidableEq, Repr

/-- Payload of `storage.createFamilyMember` as built by the upload
handlers. -/
structure InsertFamilyMember where
  name : String
  birthDate : Option String := none
  deathDate : Option String := none
  birthPlace : Option String := none
  deathPlace : Option String := none
  notes : String := ""
  photos : List String := []
  deriving DecidableEq, Repr

/-- Payload of `storage.createLocation` as built by the upload handlers. -/
structure InsertLocation where
  name : String
  latitude : Int
  longitude : Int
  address : Option String
  locationType : String
  timeSpan : Option String
  memberCount : Int
  deriving DecidableEq, Repr

/-- Payload of `storage.createEvent` as built by the upload handlers, minus
the storage-generated `memberId`/`locationId` references. -/
structure InsertEventRec where
  eventType : String
  eventDate : Option String
  description : String
  notes : String
  deriving DecidableEq, Repr

/-- The `[{place: birthPlace, type: "birth"}, {place: deathPlace, type:
"death"}].filter(p => p.place)` list of the GEDCOM upload handler: the
birth and death places that are truthy, tagged with their role. -/
def memberPlaces (m : ParsedMember) : List (String × String) :=
  ([(m.birthPlace, "birth"), (m.deathPlace, "death")] : List (Option String × String)).filterMap
    (fun pt => match pt.1 with
      | some p => if p ≠ "" then some (p, pt.2) else none
      | none => none)

/-- The `createFamilyMember` payload for one parsed GEDCOM member. -/
def mkInsertMember (m : ParsedMember) : InsertFamilyMember :=
  ⟨m.name, m.birthDate, m.deathDate, m.birthPlace, m.deathPlace, m.notes, m.photos⟩

/-- The date string of the role (`birth` or `death`) that triggered a
resolution, for a parsed GEDCOM member. -/
def roleDate (m : ParsedMember) (ty : String) : Option String :=
  if ty = "birth" then m.birthDate else m.deathDate

/-- Locations and events created for one (place, role) pair of one member:
one of each when geocoding succeeds, nothing when it returns `none`. -/
def placeOutputs (geo : GeoOracle) (m : ParsedMember) (pt : String × String) :
    List InsertLocation × List InsertEventRec :=
  match geo pt.1 with
  | some c =>
    ([{ name := pt.1, latitude := c.1, longitude := c.2, address := some pt.1,
        locationType := pt.2, timeSpan := roleDate m pt.2, memberCount := 1 }],
     [{ eventType := pt.2, eventDate := roleDate m pt.2,
        description := (if pt.2 = "birth" then "Born" else "Died") ++ " in " ++ pt.1,
        notes := "" }])
  | none => ([], [])

/-- All entities created during one GEDCOM upload run, in creation order. -/
structure UploadResult where
  members : List InsertFamilyMember
  locations : List InsertLocation
  events : List InsertEventRec
  deriving DecidableEq, Repr

/-- The empty accumulation state of an upload run. -/
def emptyUpload : UploadResult := ⟨[], [], []⟩

/-- Concatenate the created-entity lists of two (sub)runs. -/
def mergeUpload (a b : UploadResult) : UploadResult :=
  ⟨a.members ++ b.members, a.locations ++ b.locations, a.events ++ b.events⟩

/-- Entities created while processing one parsed GEDCOM member: a nameless
record is skipped entirely, otherwise one member record plus the outputs of
its resolvable places. -/
def perMemberOutput (geo : GeoOracle) (m : ParsedMember) : UploadResult :=
  if m.name = "" then emptyUpload
  else
    ⟨[mkInsertMember m],
     (memberPlaces m).flatMap (fun pt => (placeOutputs geo m pt).1),
     (memberPlaces m).flatMap (fun pt => (placeOutputs geo m pt).2)⟩

/-- Shallow embedding of the member-processing loop of the
`/api/upload/gedcom` handler. -/
def processGedcomUpload (geo : GeoOracle) (ms : List ParsedMember) : UploadResult :=
  ms.foldl (fun acc m => mergeUpload acc (perMemberOutput geo m)) emptyUpload

/-- The row object of one data line of the CSV upload handler. -/
def csvRowOf (headers : List String) (line : String) : String → String :=
  rowGet headers ((jsSplit ',' line).map jsTrim)

/-- The `createFamilyMember` payload built from one CSV row by the upload
handler (`row.x || row.y || null` alias merging). -/
def csvRowMember (row : String → String) : InsertFamilyMember :=
  { name := row "name",
    birthDate := jsOrOpt (row "birth_date") (row "birthdate"),
    deathDate := jsOrOpt (row "death_date") (row "deathdate"),
    birthPlace := jsOrOpt (row "birth_place") (row "birthplace"),
    deathPlace := jsOrOpt (row "death_place") (row "deathplace"),
    notes := row "notes",
    photos := [] }

/-- The truthy (place, role) pairs of one CSV row. -/
def csvRowPlaces (row : String → String) : List (String × String) :=
  ([(jsOr (row "birth_place") (row "birthplace"), "birth"),
    (jsOr (row "death_place") (row "deathplace"), "death")]).filter (fun pt => pt.1 ≠ "")

/-- The date string of the role that triggered a resolution, for a CSV
row (always a string, possibly empty). -/
def csvRoleDate (row : String → String) (ty : String) : String :=
  if ty = "birth" then jsOr (row "birth_date") (row "birthdate")
  else jsOr (row "death_date") (row "deathdate")

/-- Entities created while processing one named CSV row. -/
def csvRowOutput (geo : GeoOracle) (row : String → String) : UploadResult :=
  ⟨[csvRowMember row],
   (csvRowPlaces row).flatMap (fun pt =>
      match geo pt.1 with
      | some c =>
        [{ name := pt.1, latitude := c.1, longitude := c.2, address := some pt.1,
           locationType := pt.2, timeSpan := some (csvRoleDate row pt.2), memberCount := 1 }]
      | none => []),
   (csvRowPlaces row).flatMap (fun pt =>
      match geo pt.1 with
      | some _ =>
        [{ eventType := pt.2, eventDate := some (csvRoleDate row pt.2),
           description := (if pt.2 = "birth" then "Born" else "Died") ++ " in " ++ pt.1,
           notes := "" }]
      | none => [])⟩

/-- One iteration of the CSV upload loop: skip the row when its name is
empty, otherwise append the row's created entities. -/
def csvUploadStep (geo : GeoOracle) (headers : List String) (acc : UploadResult)
    (line : String) : UploadResult :=
  let row := csvRowOf headers line
  if row "name" = "" then acc else mergeUpload acc (csvRowOutput geo row)

/-- Shallow embedding of the row-processing loop of the `/api/upload/csv`
handler; `none` models the 400 response for an input with fewer than two
non-blank lines. -/
def processCsvUpload (geo : GeoOracle) (csvText : String) : Option UploadResult :=
  let lines := csvLines csvText
  if lines.length < 2 then none
  else some ((lines.drop 1).foldl (csvUploadStep geo (csvHeaders csvText)) emptyUpload)

/-! ## Stored entities and the narrative builder (part_000) -/

/-- A stored family member (select shape of the `family_members` table;
`createdAt` is modelled as a natural number timestamp). -/
structure FamilyMember where
  id : String
  name : String
  birthDate : Option String := none
  deathDate : Option String := none
  birthPlace : Option String := none
  deathPlace : Option String := none
  notes : Option String := none
  photos : List String := []
  createdAt : Nat := 0
  deriving DecidableEq, Repr

/-- A stored location (select shape of the `locations` table). -/
structure Location where
  id : String
  name : String
  latitude : Int
  longitude : Int
  address : Option String := none
  locationType : Option String := none
  timeSpan : Option String := none
  memberCount : Option Int := none
  createdAt : Nat := 0
  deriving DecidableEq, Repr

/-- A stored event (select shape of the `events` table). -/
structure Event where
  id : String
  memberId : Option String := none
  locationId : Option String := none
  eventType : String
  eventDate : Option String := none
  description : Option String := none
  notes : Option String := none
  createdAt : Nat := 0
  deriving DecidableEq, Repr

/-- Model of using a nullable string as a JavaScript object key: `null` is
coerced to the string key `"null"`. -/
def jsObjectKey : Option String → String
  | some s => s
  | none => "null"

/-- Append an event to the group of key `k`, or open a new group at the
end, as the `reduce` accumulator object of `generateStoryFromEvents` does
(object keys keep insertion order). -/
def groupInsert (k : String) (e : Event) :
    List (String × List Event) → List (String × List Event)
  | [] => [(k, [e])]
  | (k', es) :: rest =>
    if k' = k then (k', es ++ [e]) :: rest else (k', es) :: groupInsert k e rest

/-- Group events by their `memberId` key, keeping first-encounter order of
the groups and encounter order within each group. -/
def groupByMember (events : List Event) : List (String × List Event) :=
  events.foldl (fun acc e => groupInsert (jsObjectKey e.memberId) e acc) []

/-- Order-preserving model of `new Date(str).getTime()` for ISO
`YYYY`, `YYYY-MM` and `YYYY-MM-DD` date strings (a bare year parses as
January 1 of that year, exactly as in JavaScript). -/
def dateKey (s : String) : Int :=
  let ps := jsSplit '-' s
  let y := (jsParseInt (ps.getD 0 "")).getD 0
  let mo := (jsParseInt (ps.getD 1 "")).getD 1
  let d := (jsParseInt (ps.getD 2 "")).getD 1
  y * 10000 + mo * 100 + d

/-- Sort key of one event: `new Date(e.eventDate || "1900-01-01")`. -/
def jsDateVal (d : Option String) : Int :=
  dateKey (match d with
    | some s => if s ≠ "" then s else "1900-01-01"
    | none => "1900-01-01")

/-- Insert `x` after every element `y` with `le y x`, keeping the relative
order of equal elements. -/
def insertLe {α : Type} (le : α → α → Bool) (x : α) : List α → List α
  | [] => [x]
  | y :: ys => if le y x then y :: insertLe le x ys else x :: y :: ys

/-- Stable insertion sort: the model of JavaScript `Array.prototype.sort`
with an ascending numeric comparator. -/
def jsStableSort {α : Type} (le : α → α → Bool) (l : List α) : List α :=
  l.foldl (fun acc x => insertLe le x acc) []

/-- The apostrophe character, kept out of string literals. -/
def apos : String := (Char.ofNat 39).toString

/-- Display name of the location referenced by an event
(`location?.name || fallback`, so an empty stored name also falls back). -/
def locDisplay (locations : List Location) (lid : Option String) (fallback : String) : String :=
  match locations.find? (fun l => lid == some l.id) with
  | some l => if l.name ≠ "" then l.name else fallback
  | none => fallback

/-- The `" in date"` suffix appended when the event has a truthy date. -/
def dateSuffix (e : Event) : String :=
  match e.eventDate with
  | some d => if d ≠ "" then " in " ++ d else ""
  | none => ""

/-- The sentence fragment contributed by one event; unknown event types
contribute nothing. -/
def eventPhrase (locations : List Location) (e : Event) : String :=
  if e.eventType = "birth" then
    "with their birth in " ++ locDisplay locations e.locationId "an unknown location"
      ++ dateSuffix e
  else if e.eventType = "migration" then
    ", followed by a significant migration to "
      ++ locDisplay locations e.locationId "a new location" ++ dateSuffix e
  else if e.eventType = "death" then
    ", and their life concluded in " ++ locDisplay locations e.locationId "an unknown location"
      ++ dateSuffix e
  else ""

/-- The sentence built for one member: date-sorted event fragments joined
with `", "` between consecutive events, closed by `". "` and followed by
the member's notes when truthy. -/
def memberStory (locations : List Location) (mem : FamilyMember) (es : List Event) : String :=
  let sorted := jsStableSort (fun a b => decide (jsDateVal a.eventDate ≤ jsDateVal b.eventDate)) es
  let body := (sorted.enum).foldl (fun acc p =>
      acc ++ eventPhrase locations p.2 ++ (if p.1 < sorted.length - 1 then ", " else "")) ""
  mem.name ++ apos ++ "s journey began " ++ body ++ ". " ++
    (match mem.notes with
     | some n => if n ≠ "" then n ++ " " else ""
     | none => "")

/-- Shallow embedding of `generateStoryFromEvents`: group events by member,
skip groups whose member is not found, concatenate the member sentences and
trim the result. -/
def generateStoryFromEvents (events : List Event) (members : List FamilyMember)
    (locations : List Location) : String :=
  if events.isEmpty then ""
  else
    jsTrim ((groupByMember events).foldl (fun story p =>
       match members.find? (fun m => m.id == p.1) with
       | none => story
       | some mem => story ++ memberStory locations mem p.2) "")

/-! ## MemStorage update methods (part_000)

Each collection is a map from id to entity, modelled as a function
`String → Option entity`.  A partial update (`Partial<InsertX>`) is
modelled with one `Option` per insertable field: `none` means the field is
absent from the update object.  The spread `{ ...entity, ...updateData }`
overwrites exactly the present fields; `id` and `createdAt` are not part of
the insert schema and therefore cannot be overwritten. -/

/-- A `Partial<InsertFamilyMember>` update object. -/
structure FamilyMemberPatch where
  name : Option String := none
  birthDate : Option (Option String) := none
  deathDate : Option (Option String) := none
  birthPlace : Option (Option String) := none
  deathPlace : Option (Option String) := none
  notes : Option (Option String) := none
  photos : Option (List String) := none
  deriving DecidableEq, Repr

/-- The spread `{ ...member, ...updateData }`. -/
def patchFamilyMember (m : FamilyMember) (u : FamilyMemberPatch) : FamilyMember :=
  { m with
    name := u.name.getD m.name,
    birthDate := u.birthDate.getD m.birthDate,
    deathDate := u.deathDate.getD m.deathDate,
    birthPlace := u.birthPlace.getD m.birthPlace,
    deathPlace := u.deathPlace.getD m.deathPlace,
    notes := u.notes.getD m.notes,
    photos := u.photos.getD m.photos }

/-- Shallow embedding of `MemStorage.updateFamilyMember`: returns the
method result together with the collection after the call. -/
def updateFamilyMember (store : String → Option FamilyMember) (id : String)
    (u : FamilyMemberPatch) : Option FamilyMember × (String → Option FamilyMember) :=
  match store id with
  | none => (none, store)
  | some m =>
    let updated := patchFamilyMember m u
    (some updated, fun k => if k = id then some updated else store k)

/-- A `Partial<InsertLocation>` update object. -/
structure LocationPatch where
  name : Option String := none
  latitude : Option Int := none
  longitude : Option Int := none
  address : Option (Option String) := none
  locationType : Option (Option String) := none
  timeSpan : Option (Option String) := none
  memberCount : Option (Option Int) := none
  deriving DecidableEq, Repr

/-- The spread `{ ...location, ...updateData }`. -/
def patchLocation (m : Location) (u : LocationPatch) : Location :=
  { m with
    name := u.name.getD m.name,
    latitude := u.latitude.getD m.latitude,
    longitude := u.longitude.getD m.longitude,
    address := u.address.getD m.address,
    locationType := u.locationType.getD m.locationType,
    timeSpan := u.timeSpan.getD m.timeSpan,
    memberCount := u.memberCount.getD m.memberCount }

/-- Shallow embedding of `MemStorage.updateLocation`. -/
def updateLocation (store : String → Option Location) (id : String)
    (u : LocationPatch) : Option Location × (String → Option Location) :=
  match store id with
  | none => (none, store)
  | some m =>
    let updated := patchLocation m u
    (some updated, fun k => if k = id then some updated else store k)

/-- A `Partial<InsertEvent>` update object. -/
structure EventPatch where
  memberId : Option (Option String) := none
  locationId : Option (Option String) := none
  eventType : Option String := none
  eventDate : Option (Option String) := none
  description : Option (Option String) := none
  notes : Option (Option String) := none
  deriving DecidableEq, Repr

/-- The spread `{ ...event, ...updateData }`. -/
def patchEvent (m : Event) (u : EventPatch) : Event :=
  { m with
    memberId := u.memberId.getD m.memberId,
    locationId := u.locationId.getD m.locationId,
    eventType := u.eventType.getD m.eventType,
    eventDate := u.eventDate.getD m.eventDate,
    description := u.description.getD m.description,
    notes := u.notes.getD m.notes }

/-- Shallow embedding of `MemStorage.updateEvent`. -/
def updateEvent (store : String → Option Event) (id : String)
    (u : EventPatch) : Option Event × (String → Option Event) :=
  match store id with
  | none => (none, store)
  | some m =>
    let updated := patchEvent m u
    (some updated, fun k => if k = id then some updated else store k)

/-- The closed form of a pending event after a level-2 `DATE` or `PLAC`
assignment with value `v`. -/
def closedEvt (e : GedcomEvent) (tg v : String) : GedcomEvent :=
  if tg = "DATE" then { e with date := some v } else { e with place := some v }

/-- A concrete scanner state with an individual open and a birth event
pending, used to witness the level-2 closing theorem. -/
def c2State : GedcomState :=
  ⟨[], [], [], some Ctx.individual,
   some ⟨"INDI1", "", none, none, none, none, none, []⟩, none,
   some ⟨"birth", none, none, none⟩⟩

/-- A geocoding oracle that never finds anything. -/
def c4Geo : GeoOracle := fun _ => none

/-- A parsed member whose only place string is a birth place. -/
def c4Member : ParsedMember := ⟨"John", none, none, some "Atlantis", none, "", []⟩

/-- A parsed member with no places at all. -/
def c4Other : ParsedMember := ⟨"Mary", some "1900", none, none, none, "", []⟩

/-- A geocoding oracle that resolves every place to (1, 2). -/
def c7Geo : GeoOracle := fun _ => some (1, 2)

/-- A parsed member born in Boston in 1900. -/
def c7Member : ParsedMember := ⟨"John", some "1900", none, some "Boston", none, "", []⟩

/-- The location the upload pipeline creates for `c7Member` under
`c7Geo`. -/
def c7Loc : InsertLocation := ⟨"Boston", 1, 2, some "Boston", "birth", some "1900", 1⟩

/-- A concrete stored family member for the update-method witnesses. -/
def c10Member : FamilyMember := ⟨"m1", "John", none, none, none, none, none, [], 7⟩

/-- A one-entry family-member store. -/
def c10MemberStore : String → Option FamilyMember :=
  fun k => if k = "m1" then some c10Member else none

/-- A concrete stored location for the update-method witnesses. -/
def c10Location : Location := ⟨"l1", "Boston", 1, 2, none, none, none, none, 7⟩

/-- A one-entry location store. -/
def c10LocationStore : String → Option Location :=
  fun k => if k = "l1" then some c10Location else none

/-- A concrete stored event for the update-method witnesses. -/
def c10Event : Event := ⟨"e1", none, none, "birth", none, none, none, 7⟩

/-- A one-entry event store. -/
def c10EventStore : String → Option Event :=
  fun k => if k = "e1" then some c10Event else none

/-! ## Theorems -/

/-- Effect of closing event `e` in an arbitrary scanner state. -/
theorem closeEvent_spec (s : GedcomState) (e : GedcomEvent) :
    (closeEvent s e).events = s.events ++ [e] ∧
    (closeEvent s e).currentEvent = none ∧
    (closeEvent s e).individuals = s.individuals ∧
    (closeEvent s e).families = s.families ∧
    (closeEvent s e).currentContext = s.currentContext ∧
    (∀ ci, s.currentContext = some Ctx.individual → s.currentIndividual = some ci →
      (closeEvent s e).currentIndividual = some (attachEvent ci e)) ∧
    (∀ cf, s.currentContext = some Ctx.family → s.currentFamily = some cf →
      (closeEvent s e).currentFamily =
        some (if e.type = "marriage"
          then { cf with marriageDate := e.date, marriagePlace := e.place }
          else cf)) ∧
    (s.currentContext = none →
      (closeEvent s e).currentIndividual = s.currentIndividual ∧
      (closeEvent s e).currentFamily = s.currentFamily) := by
  rcases hc : s.currentContext with _ | ctx
  · simp [closeEvent, hc]
  · cases ctx
    · rcases hci : s.currentIndividual with _ | ci
      · simp [closeEvent, hc, hci]
      · simp [closeEvent, hc, hci]
    · rcases hcf : s.currentFamily with _ | cf
      · simp [closeEvent, hc, hcf]
      · by_cases hm : e.type = "marriage" <;> simp [closeEvent, hc, hcf, hm]

/-- C2: on a level-2 line with a pending event, a `DATE` tag sets the
pending event's date and a `PLAC` tag sets its place, and immediately after
that single assignment the event is closed: it is appended to the current
individual's event list (with birth/death date/place copied to the
individual's top-level fields, overwriting previous values, via
`attachEvent`), marriage data is copied to the current family, and the
event is appended to the flat cross-cutting event list regardless of
context. -/
theorem gedcom_close_event_c2 (s : GedcomState) (e : GedcomEvent) (tg v : String)
    (he : s.currentEvent = some e) (htg : tg = "DATE" ∨ tg = "PLAC") :
    ∃ s',
      processFields s (some 2) (some tg) v = Except.ok s' ∧
      s'.events = s.events ++ [closedEvt e tg v] ∧
      s'.currentEvent = none ∧
      s'.individuals = s.individuals ∧
      s'.families = s.families ∧
      s'.currentContext = s.currentContext ∧
      (∀ ci, s.currentContext = some Ctx.individual → s.currentIndividual = some ci →
        s'.currentIndividual = some (attachEvent ci (closedEvt e tg v))) ∧
      (∀ cf, s.currentContext = some Ctx.family → s.currentFamily = some cf →
        s'.currentFamily =
          some (if (closedEvt e tg v).type = "marriage"
            then { cf with marriageDate := (closedEvt e tg v).date,
                           marriagePlace := (closedEvt e tg v).place }
            else cf)) ∧
      (s.currentContext = none →
        s'.currentIndividual = s.currentIndividual ∧ s'.currentFamily = s.currentFamily) := by
  have hp : processFields s (some 2) (some tg) v = Except.ok (level2Step s (some tg) v) := by
    simp [processFields]
  rcases htg with rfl | rfl
  · have hl : level2Step s (some "DATE") v =
        closeEvent { s with currentEvent := some { e with date := some v } }
          { e with date := some v } := by
      simp [level2Step, level2Assign, he]
    have hs := closeEvent_spec { s with currentEvent := some { e with date := some v } }
      { e with date := some v }
    refine ⟨_, hp, ?_⟩
    rw [hl]
    simpa [closedEvt] using hs
  · have hl : level2Step s (some "PLAC") v =
        closeEvent { s with currentEvent := some { e with place := some v } }
          { e with place := some v } := by
      simp [level2Step, level2Assign, he]
    have hs := closeEvent_spec { s with currentEvent := some { e with place := some v } }
      { e with place := some v }
    refine ⟨_, hp, ?_⟩
    rw [hl]
    simpa [closedEvt] using hs

/-- Witness for C2 at a concrete state and the line `2 DATE 1900`. -/
theorem gedcom_close_event_c2_witness :
    ∃ s',
      processFields c2State (some 2) (some "DATE") "1900" = Except.ok s' ∧
      s'.events = c2State.events ++ [closedEvt ⟨"birth", none, none, none⟩ "DATE" "1900"] ∧
      s'.currentEvent = none ∧
      s'.individuals = c2State.individuals ∧
      s'.families = c2State.families ∧
      s'.currentContext = c2State.currentContext ∧
      (∀ ci, c2State.currentContext = some Ctx.individual →
        c2State.currentIndividual = some ci →
        s'.currentIndividual =
          some (attachEvent ci (closedEvt ⟨"birth", none, none, none⟩ "DATE" "1900"))) ∧
      (∀ cf, c2State.currentContext = some Ctx.family → c2State.currentFamily = some cf →
        s'.currentFamily =
          some (if (closedEvt ⟨"birth", none, none, none⟩ "DATE" "1900").type = "marriage"
            then { cf with
                    marriageDate := (closedEvt ⟨"birth", none, none, none⟩ "DATE" "1900").date,
                    marriagePlace := (closedEvt ⟨"birth", none, none, none⟩ "DATE" "1900").place }
            else cf)) ∧
      (c2State.currentContext = none →
        s'.currentIndividual = c2State.currentIndividual ∧
        s'.currentFamily = c2State.currentFamily) :=
  gedcom_close_event_c2 c2State ⟨"birth", none, none, none⟩ "DATE" "1900" rfl (Or.inl rfl)

/-- C5: the CSV input with header `name,birth_date,birth_place` and single
data row `Jane Doe,1900,Boston` yields exactly one person record with
birth date `1900`, birth place `Boston` and exactly one synthesized birth
event; header names are lowercased and trimmed; and for each recognized
alias pair the first non-empty value wins. -/
theorem parse_csv_normalization_c5 :
    parseCsv "name,birth_date,birth_place\nJane Doe,1900,Boston" =
      [⟨"I1", "Jane Doe", some "1900", none, some "Boston", none, none,
        [⟨"birth", some "1900", some "Boston", some "Born in Boston"⟩]⟩] ∧
    parseCsv "NAME , Birth_Date\nJane,1900" =
      [⟨"I1", "Jane", some "1900", none, none, none, none,
        [⟨"birth", some "1900", none, some "Born in unknown location"⟩]⟩] ∧
    (∀ a b : String,
      (csvRowIndividual ["name", "birth_date", "birthdate"] ["Jane", a, b] 1).map
          GedcomIndividual.birthDate =
        some (if a ≠ "" then some a else if b ≠ "" then some b else none)) ∧
    (∀ a b : String,
      (csvRowIndividual ["name", "death_date", "deathdate"] ["Jane", a, b] 1).map
          GedcomIndividual.deathDate =
        some (if a ≠ "" then some a else if b ≠ "" then some b else none)) ∧
    (∀ a b : String,
      (csvRowIndividual ["name", "birth_place", "birthplace"] ["Jane", a, b] 1).map
          GedcomIndividual.birthPlace =
        some (if a ≠ "" then some a else if b ≠ "" then some b else none)) ∧
    (∀ a b : String,
      (csvRowIndividual ["name", "death_place", "deathplace"] ["Jane", a, b] 1).map
          GedcomIndividual.deathPlace =
        some (if a ≠ "" then some a else if b ≠ "" then some b else none)) := by
  refine ⟨by decide, by decide, ?_, ?_, ?_, ?_⟩ <;>
    · intro a b
      simp [csvRowIndividual, rowGet, rowPairs, jsOrOpt, jsStrOpt,
        List.getD_cons_zero, List.getD_cons_succ]

/-- C6: for one person with a birth event in Boston in 1900 and a death
event in Chicago in 1950, the generated narrative contains
`birth in Boston in 1900` before `life concluded in Chicago in 1950`,
joined by comma fragments. -/
theorem narrative_birth_death_c6 :
    generateStoryFromEvents
      [⟨"E1", some "M1", some "L1", "birth", some "1900", none, none, 0⟩,
       ⟨"E2", some "M1", some "L2", "death", some "1950", none, none, 0⟩]
      [⟨"M1", "John", none, none, none, none, none, [], 0⟩]
      [⟨"L1", "Boston", 1, 2, none, none, none, none, 0⟩,
       ⟨"L2", "Chicago", 3, 4, none, none, none, none, 0⟩] =
    "John" ++ apos ++ "s journey began with their " ++ "birth in Boston in 1900" ++
      ", , and their " ++ "life concluded in Chicago in 1950" ++ "." := by
  decide

/-- C9: a `1 NAME John /Smith/` line processed in an individual context
sets the display name to exactly `John Smith`. -/
theorem gedcom_name_normalization_c9 (s : GedcomState) (ci : GedcomIndividual)
    (hctx : s.currentContext = some Ctx.individual)
    (hci : s.currentIndividual = some ci) :
    processFields s (some 1) (some "NAME") "John /Smith/" =
      Except.ok { s with currentIndividual := some { ci with name := "John Smith" } } := by
  have hs : stripSlashes "John /Smith/" = "John Smith" := by decide
  simp [processFields, level1Step, hctx, hci, hs]

/-- Witness for C9 at a concrete scanner state. -/
theorem gedcom_name_normalization_c9_witness :
    processFields
      ⟨[], [], [], some Ctx.individual,
       some ⟨"INDI1", "", none, none, none, none, none, []⟩, none, none⟩
      (some 1) (some "NAME") "John /Smith/" =
      Except.ok
        ⟨[], [], [], some Ctx.individual,
         some ⟨"INDI1", "John Smith", none, none, none, none, none, []⟩, none, none⟩ :=
  gedcom_name_normalization_c9
    ⟨[], [], [], some Ctx.individual,
     some ⟨"INDI1", "", none, none, none, none, none, []⟩, none, none⟩
    ⟨"INDI1", "", none, none, none, none, none, []⟩ rfl rfl

theorem indi_tag_ne_empty {t : String} (h : jsIncludes t "INDI" = true) : t ≠ "" := by
  rintro rfl
  revert h
  decide

theorem level0Step_individuals (s : GedcomState) (t : String) :
    (level0Step s t).individuals.map GedcomIndividual.id = finIds s := by
  obtain ⟨inds, fams, evs, ctx, cind, cfam, cev⟩ := s
  rcases cind with _ | ci <;> rcases cfam with _ | cf <;>
    · unfold level0Step
      repeat' split
      all_goals simp_all [finIds, pendingIds, apply_ite GedcomState.individuals,
        apply_ite GedcomState.currentIndividual]

theorem level0Step_pending_indi (s : GedcomState) {t : String}
    (h : jsIncludes t "INDI" = true) :
    pendingIds (level0Step s t) = [t] := by
  have ht := indi_tag_ne_empty h
  simp [level0Step, pendingIds, h, ht]

theorem level0Step_pending_other (s : GedcomState) {t : String}
    (hI : jsIncludes t "INDI" = false) (hF : jsIncludes t "FAM" = false) :
    pendingIds (level0Step s t) = [] := by
  simp [level0Step, pendingIds, hI, hF]

theorem level1Step_frame (s : GedcomState) (tag : Option String) (v : String) :
    (level1Step s tag v).individuals = s.individuals ∧
    pendingIds (level1Step s tag v) = pendingIds s := by
  obtain ⟨inds, fams, evs, ctx, cind, cfam, cev⟩ := s
  rcases cind with _ | ci <;> rcases cfam with _ | cf <;>
    · unfold level1Step
      repeat' split
      all_goals simp_all [pendingIds, apply_ite GedcomState.individuals,
        apply_ite GedcomState.currentIndividual]

theorem attachEvent_id (ci : GedcomIndividual) (e : GedcomEvent) :
    (attachEvent ci e).id = ci.id := by
  by_cases hb : e.type = "birth" <;> by_cases hd : e.type = "death" <;>
    simp [attachEvent, hb, hd]

theorem closeEvent_frame (s : GedcomState) (e : GedcomEvent) :
    (closeEvent s e).individuals = s.individuals ∧
    pendingIds (closeEvent s e) = pendingIds s := by
  obtain ⟨inds, fams, evs, ctx, cind, cfam, cev⟩ := s
  rcases cind with _ | ci <;> rcases cfam with _ | cf <;>
    · unfold closeEvent
      repeat' split
      all_goals simp_all [pendingIds, attachEvent_id, apply_ite GedcomState.individuals,
        apply_ite GedcomState.currentIndividual]

theorem level2Assign_frame (s : GedcomState) (tag : Option String) (v : String) :
    (level2Assign s tag v).individuals = s.individuals ∧
    pendingIds (level2Assign s tag v) = pendingIds s := by
  obtain ⟨inds, fams, evs, ctx, cind, cfam, cev⟩ := s
  rcases cev with _ | ev <;>
    · unfold level2Assign
      repeat' split
      all_goals simp_all [pendingIds, apply_ite GedcomState.individuals,
        apply_ite GedcomState.currentIndividual]

theorem level2Step_frame (s : GedcomState) (tag : Option String) (v : String) :
    (level2Step s tag v).individuals = s.individuals ∧
    pendingIds (level2Step s tag v) = pendingIds s := by
  simp only [level2Step]
  rcases h1 : (level2Assign s tag v).currentEvent with _ | e
  · simp only [h1]
    exact level2Assign_frame s tag v
  · simp only [h1]
    split
    · obtain ⟨ha, hb⟩ := closeEvent_frame (level2Assign s tag v) e
      obtain ⟨hc, hd⟩ := level2Assign_frame s tag v
      exact ⟨ha.trans hc, hb.trans hd⟩
    · exact level2Assign_frame s tag v

theorem processLine_step (s : GedcomState) (line : String)
    (hA : level0HasTag line = true) (hB : level0NoFam line = true) :
    ∃ s', processLine s line = Except.ok s' ∧
      finIds s' = finIds s ++ (lineIndiTag line).toList := by
  unfold processLine processFields
  unfold level0HasTag at hA
  unfold level0NoFam at hB
  unfold lineIndiTag
  rcases hl : lineLevel line with _ | l
  · rw [hl] at hA hB
    refine ⟨s, rfl, ?_⟩
    simp [hl]
  · rw [hl] at hA hB
    by_cases h0 : l = 0
    · subst h0
      simp only [if_pos rfl] at hA hB ⊢
      rcases ht : lineTag line with _ | t
      · rw [ht] at hA
        simp at hA
      · rw [ht] at hB
        refine ⟨level0Step s t, rfl, ?_⟩
        by_cases hI : jsIncludes t "INDI"
        · rw [finIds, level0Step_individuals, level0Step_pending_indi s hI]
          simp [hI]
        · simp only [Bool.not_eq_true] at hI
          have hF : jsIncludes t "FAM" = false := by
            simpa [hI] using hB
          rw [finIds, level0Step_individuals, level0Step_pending_other s hI hF]
          simp [hI]
    · have hne : (l = 0) = False := by simp [h0]
      simp only [hne, if_false, reduceIte, hl]
      by_cases h1 : l = 1
      · subst h1
        refine ⟨level1Step s (lineTag line) (lineValue line), by simp, ?_⟩
        have hfr := level1Step_frame s (lineTag line) (lineValue line)
        simp [finIds, hfr.1, hfr.2, h0]
      · by_cases h2 : l = 2
        · subst h2
          refine ⟨level2Step s (lineTag line) (lineValue line), by simp, ?_⟩
          have hfr := level2Step_frame s (lineTag line) (lineValue line)
          simp [finIds, hfr.1, hfr.2, h0]
        · refine ⟨s, by simp [h1, h2], ?_⟩
          simp [h0]

theorem runLines_good :
    ∀ (ls : List String) (s : GedcomState),
      ls.all level0HasTag = true → ls.all level0NoFam = true →
      ∃ s', runLines s ls = Except.ok s' ∧
        finIds s' = finIds s ++ ls.filterMap lineIndiTag := by
  intro ls
  induction ls with
  | nil =>
    intro s _ _
    exact ⟨s, rfl, by simp⟩
  | cons l ls ih =>
    intro s hA hB
    simp only [List.all_cons, Bool.and_eq_true] at hA hB
    obtain ⟨s1, h1, hf1⟩ := processLine_step s l hA.1 hB.1
    obtain ⟨s2, h2, hf2⟩ := ih s1 hA.2 hB.2
    refine ⟨s2, ?_, ?_⟩
    · simp [runLines, h1, h2]
    · rw [hf2, hf1]
      cases h : lineIndiTag l <;> simp [List.filterMap_cons, h]

theorem finalizeState_ids (s : GedcomState) :
    (finalizeState s).individuals.map GedcomIndividual.id = finIds s := by
  obtain ⟨inds, fams, evs, ctx, cind, cfam, cev⟩ := s
  rcases cind with _ | ci <;> rcases cfam with _ | cf <;>
    · unfold finalizeState
      repeat' split
      all_goals simp_all [finIds, pendingIds, apply_ite GedcomState.individuals,
        apply_ite GedcomState.currentIndividual]

/-- C1 (amended): for every input whose level-0 lines each carry a tag
token and none of whose level-0 tags contains `FAM`, `parseGedcom`
succeeds, the emitted individuals are exactly the level-0 `INDI` block
openers in file order (witnessed by their ids), and in particular the
individuals list has exactly one entry per `INDI` block. -/
theorem gedcom_indi_blocks_c1 (text : String)
    (hA : (gedcomLines text).all level0HasTag = true)
    (hB : (gedcomLines text).all level0NoFam = true) :
    ∃ r, parseGedcom text = Except.ok r ∧
      r.individuals.map GedcomIndividual.id = indiTags text ∧
      r.individuals.length = indiBlockCount text := by
  obtain ⟨s', hrun, hids⟩ := runLines_good (gedcomLines text) initState hA hB
  refine ⟨finalizeState s', ?_, ?_, ?_⟩
  · simp [parseGedcom, hrun, Except.map]
  · rw [finalizeState_ids, hids]
    simp [finIds, pendingIds, initState, indiTags]
  · have hmap : (finalizeState s').individuals.map GedcomIndividual.id = indiTags text := by
      rw [finalizeState_ids, hids]
      simp [finIds, pendingIds, initState, indiTags]
    calc (finalizeState s').individuals.length
        = ((finalizeState s').individuals.map GedcomIndividual.id).length :=
          (List.length_map _ _).symm
      _ = (indiTags text).length := by rw [hmap]
      _ = indiBlockCount text := rfl

/-- Counterexample to C1 as stated: the input `0 INDI`, `0 FAM`, `0 TRLR`
has one level-0 individual block but `parseGedcom` emits two individuals
(the still-pending individual is flushed again because opening a family
does not clear it). -/
theorem gedcom_indi_blocks_c1_counterexample :
    indiBlockCount "0 INDI\n0 FAM\n0 TRLR" = 1 ∧
    (parseGedcom "0 INDI\n0 FAM\n0 TRLR").toOption.map
      (fun r => r.individuals.length) = some 2 := by
  decide

/-- Witness for the amended C1 on a concrete two-block-free input. -/
theorem gedcom_indi_blocks_c1_witness :
    ∃ r, parseGedcom "0 INDI1 INDI\n1 NAME John /Smith/\n0 TRLR" = Except.ok r ∧
      r.individuals.map GedcomIndividual.id =
        indiTags "0 INDI1 INDI\n1 NAME John /Smith/\n0 TRLR" ∧
      r.individuals.length = indiBlockCount "0 INDI1 INDI\n1 NAME John /Smith/\n0 TRLR" :=
  gedcom_indi_blocks_c1 _ (by decide) (by decide)

theorem processLine_ok (s : GedcomState) (line : String)
    (h : level0HasTag line = true) :
    ∃ s', processLine s line = Except.ok s' := by
  unfold processLine processFields
  unfold level0HasTag at h
  rcases hl : lineLevel line with _ | l
  · exact ⟨s, rfl⟩
  · rw [hl] at h
    by_cases h0 : l = 0
    · subst h0
      simp only [if_pos rfl] at h ⊢
      rcases ht : lineTag line with _ | t
      · rw [ht] at h
        simp at h
      · exact ⟨level0Step s t, rfl⟩
    · by_cases h1 : l = 1
      · subst h1
        exact ⟨level1Step s (lineTag line) (lineValue line), by simp⟩
      · by_cases h2 : l = 2
        · subst h2
          exact ⟨level2Step s (lineTag line) (lineValue line), by simp⟩
        · exact ⟨s, by simp [h0, h1, h2]⟩

theorem runLines_ok :
    ∀ (ls : List String) (s : GedcomState), ls.all level0HasTag = true →
      ∃ s', runLines s ls = Except.ok s' := by
  intro ls
  induction ls with
  | nil => exact fun s _ => ⟨s, rfl⟩
  | cons l ls ih =>
    intro s hA
    simp only [List.all_cons, Bool.and_eq_true] at hA
    obtain ⟨s1, h1⟩ := processLine_ok s l hA.1
    obtain ⟨s2, h2⟩ := ih s1 hA.2
    exact ⟨s2, by simp [runLines, h1, h2]⟩

/-- C3 (amended): a line whose level token does not parse as a number is
skipped entirely, leaving the scanner state unchanged and raising nothing;
and `parseGedcom` succeeds on every input whose level-0 lines each carry a
tag token.  (Totality over all inputs fails: see the counterexample.) -/
theorem gedcom_error_tolerance_c3 :
    (∀ (s : GedcomState) (line : String), lineLevel line = none →
       processLine s line = Except.ok s) ∧
    (∀ text : String, (gedcomLines text).all level0HasTag = true →
       ∃ r, parseGedcom text = Except.ok r) := by
  constructor
  · intro s line h
    unfold processLine processFields
    rw [h]
  · intro text hA
    obtain ⟨s', hrun⟩ := runLines_ok (gedcomLines text) initState hA
    exact ⟨finalizeState s', by simp [parseGedcom, hrun, Except.map]⟩

/-- Counterexample to C3 as stated: `parseGedcom` is not total — the
single-line input `0` (a level-0 line with no tag token) raises a
`TypeError` when the code calls `tag.includes("INDI")` on `undefined`. -/
theorem gedcom_error_tolerance_c3_counterexample :
    parseGedcom "0" = Except.error () := by
  rfl

/-- Witness for C3: a line with non-numeric level is skipped, and a
well-tagged input parses successfully. -/
theorem gedcom_error_tolerance_c3_witness :
    processLine initState "x DATE 1900" = Except.ok initState ∧
    (∃ r, parseGedcom "0 INDI\n1 NAME Ann" = Except.ok r) :=
  ⟨gedcom_error_tolerance_c3.1 initState "x DATE 1900" (by decide),
   gedcom_error_tolerance_c3.2 "0 INDI\n1 NAME Ann" (by decide)⟩

theorem mergeUpload_empty_left (a : UploadResult) : mergeUpload emptyUpload a = a := by
  cases a
  simp [mergeUpload, emptyUpload]

theorem mergeUpload_empty_right (a : UploadResult) : mergeUpload a emptyUpload = a := by
  cases a
  simp [mergeUpload, emptyUpload]

theorem mergeUpload_assoc (a b c : UploadResult) :
    mergeUpload (mergeUpload a b) c = mergeUpload a (mergeUpload b c) := by
  cases a
  cases b
  cases c
  simp [mergeUpload]

theorem processGedcomUpload_foldl (geo : GeoOracle) (ms : List ParsedMember) :
    ∀ acc : UploadResult,
      ms.foldl (fun a m => mergeUpload a (perMemberOutput geo m)) acc =
        mergeUpload acc (processGedcomUpload geo ms) := by
  induction ms with
  | nil =>
    intro acc
    simp [processGedcomUpload, mergeUpload_empty_right]
  | cons m ms ih =>
    intro acc
    have hc : processGedcomUpload geo (m :: ms) =
        mergeUpload (perMemberOutput geo m) (processGedcomUpload geo ms) := by
      simp only [processGedcomUpload, List.foldl_cons]
      rw [ih, mergeUpload_empty_left]
      rfl
    rw [List.foldl_cons, ih, hc, mergeUpload_assoc]

theorem processGedcomUpload_cons (geo : GeoOracle) (m : ParsedMember)
    (ms : List ParsedMember) :
    processGedcomUpload geo (m :: ms) =
      mergeUpload (perMemberOutput geo m) (processGedcomUpload geo ms) := by
  simp only [processGedcomUpload, List.foldl_cons]
  rw [processGedcomUpload_foldl, mergeUpload_empty_left]
  rfl

theorem processGedcomUpload_append (geo : GeoOracle) (l1 l2 : List ParsedMember) :
    processGedcomUpload geo (l1 ++ l2) =
      mergeUpload (processGedcomUpload geo l1) (processGedcomUpload geo l2) := by
  simp only [processGedcomUpload, List.foldl_append]
  rw [processGedcomUpload_foldl]
  rfl

/-- C4: for a named member whose only place string fails resolution (the
geocoding oracle answers `none`), the upload pipeline creates its member
record but zero locations and zero events, and processing of the
surrounding members continues unaffected. -/
theorem upload_geocode_miss_c4 (geo : GeoOracle) (m : ParsedMember) (p ty : String)
    (ms1 ms2 : List ParsedMember)
    (hname : m.name ≠ "")
    (hplaces : memberPlaces m = [(p, ty)])
    (hgeo : geo p = none) :
    perMemberOutput geo m = ⟨[mkInsertMember m], [], []⟩ ∧
    processGedcomUpload geo (ms1 ++ m :: ms2) =
      ⟨(processGedcomUpload geo ms1).members ++
         mkInsertMember m :: (processGedcomUpload geo ms2).members,
       (processGedcomUpload geo ms1).locations ++ (processGedcomUpload geo ms2).locations,
       (processGedcomUpload geo ms1).events ++ (processGedcomUpload geo ms2).events⟩ := by
  have h1 : perMemberOutput geo m = ⟨[mkInsertMember m], [], []⟩ := by
    simp [perMemberOutput, hname, hplaces, placeOutputs, hgeo]
  refine ⟨h1, ?_⟩
  rw [processGedcomUpload_append, processGedcomUpload_cons, h1]
  simp [mergeUpload]

/-- Witness for C4: a member born in the unresolvable Atlantis, surrounded
by two copies of another member. -/
theorem upload_geocode_miss_c4_witness :
    perMemberOutput c4Geo c4Member = ⟨[mkInsertMember c4Member], [], []⟩ ∧
    processGedcomUpload c4Geo ([c4Other] ++ c4Member :: [c4Other]) =
      ⟨(processGedcomUpload c4Geo [c4Other]).members ++
         mkInsertMember c4Member :: (processGedcomUpload c4Geo [c4Other]).members,
       (processGedcomUpload c4Geo [c4Other]).locations ++
         (processGedcomUpload c4Geo [c4Other]).locations,
       (processGedcomUpload c4Geo [c4Other]).events ++
         (processGedcomUpload c4Geo [c4Other]).events⟩ :=
  upload_geocode_miss_c4 c4Geo c4Member "Atlantis" "birth" [c4Other] [c4Other]
    (by decide) (by decide) rfl

theorem mem_locations_upload {geo : GeoOracle} {ms : List ParsedMember}
    {loc : InsertLocation} :
    loc ∈ (processGedcomUpload geo ms).locations →
    ∃ m ∈ ms, loc ∈ (perMemberOutput geo m).locations := by
  induction ms with
  | nil =>
    intro h
    simp [processGedcomUpload, emptyUpload] at h
  | cons m ms ih =>
    intro h
    rw [processGedcomUpload_cons] at h
    simp only [mergeUpload, List.mem_append] at h
    rcases h with h | h
    · exact ⟨m, List.mem_cons_self m ms, h⟩
    · obtain ⟨m', hm', hl⟩ := ih h
      exact ⟨m', List.mem_cons_of_mem m hm', hl⟩

theorem mem_memberPlaces {m : ParsedMember} {pt : String × String} :
    pt ∈ memberPlaces m →
    (m.birthPlace = some pt.1 ∧ pt.2 = "birth" ∧ pt.1 ≠ "") ∨
    (m.deathPlace = some pt.1 ∧ pt.2 = "death" ∧ pt.1 ≠ "") := by
  intro h
  unfold memberPlaces at h
  simp only [List.mem_filterMap, List.mem_cons, List.mem_singleton,
    List.not_mem_nil, or_false] at h
  obtain ⟨x, hx, hfx⟩ := h
  rcases hx with rfl | rfl
  · rcases hbp : m.birthPlace with _ | bp <;> rw [hbp] at hfx
    · simp at hfx
    · by_cases hb : bp = ""
      · simp [hb] at hfx
      · simp only [hb, if_neg, reduceIte, ne_eq, not_false_eq_true, if_true,
          Option.some.injEq] at hfx
        subst hfx
        exact Or.inl ⟨rfl, rfl, hb⟩
  · rcases hdp : m.deathPlace with _ | dp <;> rw [hdp] at hfx
    · simp at hfx
    · by_cases hd : dp = ""
      · simp [hd] at hfx
      · simp only [hd, if_neg, reduceIte, ne_eq, not_false_eq_true, if_true,
          Option.some.injEq] at hfx
        subst hfx
        exact Or.inr ⟨rfl, rfl, hd⟩

theorem perMember_locations_spec {geo : GeoOracle} {m : ParsedMember}
    {loc : InsertLocation} :
    loc ∈ (perMemberOutput geo m).locations →
    loc.memberCount = 1 ∧
    ((loc.locationType = "birth" ∧ m.birthPlace = some loc.name ∧
        loc.timeSpan = m.birthDate) ∨
     (loc.locationType = "death" ∧ m.deathPlace = some loc.name ∧
        loc.timeSpan = m.deathDate)) := by
  intro h
  unfold perMemberOutput at h
  by_cases hn : m.name = ""
  · simp [hn, emptyUpload] at h
  · rw [if_neg hn] at h
    simp only [List.mem_flatMap] at h
    obtain ⟨pt, hpt, hl⟩ := h
    have hcase := mem_memberPlaces hpt
    unfold placeOutputs at hl
    rcases hg : geo pt.1 with _ | c <;> rw [hg] at hl
    · simp at hl
    · simp only [List.mem_singleton] at hl
      subst hl
      rcases hcase with ⟨hb, hty, hne⟩ | ⟨hd, hty, hne⟩
      · refine ⟨rfl, Or.inl ⟨hty, ?_, ?_⟩⟩
        · exact hb
        · simp [roleDate, hty]
      · refine ⟨rfl, Or.inr ⟨hty, ?_, ?_⟩⟩
        · exact hd
        · simp [roleDate, hty]

theorem mem_csvRowPlaces {row : String → String} {pt : String × String} :
    pt ∈ csvRowPlaces row →
    (pt = (jsOr (row "birth_place") (row "birthplace"), "birth") ∧ pt.1 ≠ "") ∨
    (pt = (jsOr (row "death_place") (row "deathplace"), "death") ∧ pt.1 ≠ "") := by
  intro h
  unfold csvRowPlaces at h
  simp only [List.mem_filter, List.mem_cons, List.mem_singleton,
    List.not_mem_nil, or_false, decide_eq_true_eq] at h
  obtain ⟨hx, hne⟩ := h
  rcases hx with rfl | rfl
  · exact Or.inl ⟨rfl, hne⟩
  · exact Or.inr ⟨rfl, hne⟩

theorem csvRowOutput_locations_spec {geo : GeoOracle} {row : String → String}
    {loc : InsertLocation} :
    loc ∈ (csvRowOutput geo row).locations →
    loc.memberCount = 1 ∧
    ((loc.locationType = "birth" ∧
        loc.name = jsOr (row "birth_place") (row "birthplace") ∧
        loc.timeSpan = some (csvRoleDate row "birth")) ∨
     (loc.locationType = "death" ∧
        loc.name = jsOr (row "death_place") (row "deathplace") ∧
        loc.timeSpan = some (csvRoleDate row "death"))) := by
  intro h
  unfold csvRowOutput at h
  simp only [List.mem_flatMap] at h
  obtain ⟨pt, hpt, hl⟩ := h
  have hcase := mem_csvRowPlaces hpt
  rcases hg : geo pt.1 with _ | c <;> rw [hg] at hl
  · simp at hl
  · simp only [List.mem_singleton] at hl
    subst hl
    rcases hcase with ⟨rfl, hne⟩ | ⟨rfl, hne⟩
    · exact ⟨rfl, Or.inl ⟨rfl, rfl, rfl⟩⟩
    · exact ⟨rfl, Or.inr ⟨rfl, rfl, rfl⟩⟩

theorem csv_step_mem_locations {geo : GeoOracle} {headers : List String}
    (ls : List String) :
    ∀ (acc : UploadResult) (loc : InsertLocation),
      loc ∈ (ls.foldl (csvUploadStep geo headers) acc).locations →
      loc ∈ acc.locations ∨
        ∃ line ∈ ls, loc ∈ (csvRowOutput geo (csvRowOf headers line)).locations := by
  induction ls with
  | nil =>
    intro acc loc h
    exact Or.inl h
  | cons l ls ih =>
    intro acc loc h
    rw [List.foldl_cons] at h
    rcases ih _ _ h with h' | ⟨line, hline, hl⟩
    · simp only [csvUploadStep] at h'
      by_cases hn : csvRowOf headers l "name" = ""
      · rw [if_pos hn] at h'
        exact Or.inl h'
      · rw [if_neg hn] at h'
        simp only [mergeUpload, List.mem_append] at h'
        rcases h' with h' | h'
        · exact Or.inl h'
        · exact Or.inr ⟨l, List.mem_cons_self l ls, h'⟩
    · exact Or.inr ⟨line, List.mem_cons_of_mem l hline, hl⟩

/-- C7: every location created during an ingestion run (GEDCOM or CSV
upload) has `memberCount` fixed at 1 and carries the role that triggered
the resolution as `locationType`, that role's place string as `name` and
that role's date string as `timeSpan`; and two members sharing a place
string yield two independent location entities (third conjunct). -/
theorem resolved_location_fields_c7 :
    (∀ (geo : GeoOracle) (ms : List ParsedMember) (loc : InsertLocation),
       loc ∈ (processGedcomUpload geo ms).locations →
       loc.memberCount = 1 ∧
       ∃ m ∈ ms,
         ((loc.locationType = "birth" ∧ m.birthPlace = some loc.name ∧
             loc.timeSpan = m.birthDate) ∨
          (loc.locationType = "death" ∧ m.deathPlace = some loc.name ∧
             loc.timeSpan = m.deathDate))) ∧
    (∀ (geo : GeoOracle) (text : String) (r : UploadResult) (loc : InsertLocation),
       processCsvUpload geo text = some r → loc ∈ r.locations →
       loc.memberCount = 1 ∧
       ∃ line ∈ (csvLines text).drop 1,
         ((loc.locationType = "birth" ∧
             loc.name = jsOr (csvRowOf (csvHeaders text) line "birth_place")
               (csvRowOf (csvHeaders text) line "birthplace") ∧
             loc.timeSpan = some (csvRoleDate (csvRowOf (csvHeaders text) line) "birth")) ∨
          (loc.locationType = "death" ∧
             loc.name = jsOr (csvRowOf (csvHeaders text) line "death_place")
               (csvRowOf (csvHeaders text) line "deathplace") ∧
             loc.timeSpan = some (csvRoleDate (csvRowOf (csvHeaders text) line) "death")))) ∧
    (processGedcomUpload c7Geo [c7Member, c7Member]).locations = [c7Loc, c7Loc] := by
  refine ⟨?_, ?_, by decide⟩
  · intro geo ms loc h
    obtain ⟨m, hm, hl⟩ := mem_locations_upload h
    obtain ⟨hc, hdisj⟩ := perMember_locations_spec hl
    exact ⟨hc, m, hm, hdisj⟩
  · intro geo text r loc hr h
    unfold processCsvUpload at hr
    by_cases hlen : (csvLines text).length < 2
    · rw [if_pos hlen] at hr
      cases hr
    · rw [if_neg hlen] at hr
      injection hr with hr
      subst hr
      rcases csv_step_mem_locations _ _ _ h with h' | ⟨line, hline, hl⟩
      · simp [emptyUpload] at h'
      · obtain ⟨hc, hdisj⟩ := csvRowOutput_locations_spec hl
        exact ⟨hc, line, hline, hdisj⟩

/-- Witness for C7 at a concrete one-member upload. -/
theorem resolved_location_fields_c7_witness :
    c7Loc.memberCount = 1 ∧
    ∃ m ∈ [c7Member],
      ((c7Loc.locationType = "birth" ∧ m.birthPlace = some c7Loc.name ∧
          c7Loc.timeSpan = m.birthDate) ∨
       (c7Loc.locationType = "death" ∧ m.deathPlace = some c7Loc.name ∧
          c7Loc.timeSpan = m.deathDate)) :=
  resolved_location_fields_c7.1 c7Geo [c7Member] c7Loc (by decide)

/-- C8: a CSV data row whose `name` entry is empty produces no record (both
at the row level and as an output-list invariant: every output record has a
non-empty name), and normalization is deterministic — running `parseCsv`
twice on the same input yields identical outputs. -/
theorem csv_skip_empty_name_c8 :
    (∀ (headers values : List String) (i : Nat),
       rowGet headers values "name" = "" → csvRowIndividual headers values i = none) ∧
    (∀ (csvText : String) (ind : GedcomIndividual),
       ind ∈ parseCsv csvText → ind.name ≠ "") ∧
    (∀ csvText : String, parseCsv csvText = parseCsv csvText) := by
  refine ⟨?_, ?_, fun _ => rfl⟩
  · intro headers values i h
    simp [csvRowIndividual, h]
  · intro text ind hmem
    unfold parseCsv at hmem
    by_cases hlen : (csvLines text).length < 2
    · rw [if_pos hlen] at hmem
      simp at hmem
    · rw [if_neg hlen] at hmem
      simp only [List.mem_filterMap] at hmem
      obtain ⟨p, _, hrow⟩ := hmem
      simp only [csvRowIndividual] at hrow
      split at hrow
      · exact absurd hrow (by simp)
      · rename_i hname
        injection hrow with hrec
        subst hrec
        simpa using hname

/-- Witness for C8: an empty-name row yields nothing, a kept record has a
non-empty name, and re-running normalization is the identity. -/
theorem csv_skip_empty_name_c8_witness :
    csvRowIndividual ["name"] [""] 1 = none ∧
    (⟨"I1", "Jane", none, none, none, none, none, []⟩ : GedcomIndividual).name ≠ "" ∧
    parseCsv "x" = parseCsv "x" :=
  ⟨csv_skip_empty_name_c8.1 ["name"] [""] 1 (by decide),
   csv_skip_empty_name_c8.2.1 "name\nJane"
     ⟨"I1", "Jane", none, none, none, none, none, []⟩ (by decide),
   csv_skip_empty_name_c8.2.2 "x"⟩

/-- C10: for each MemStorage collection, updating a present id changes only
that entry, preserving its `id`, its `createdAt` and every field absent
from the partial update, and leaving every other key untouched; updating an
absent id returns `undefined` and leaves the store unchanged. -/
theorem mem_storage_update_c10 :
    (∀ (store : String → Option FamilyMember) (id : String) (u : FamilyMemberPatch)
       (m : FamilyMember), store id = some m →
       ∃ m', updateFamilyMember store id u =
           (some m', fun k => if k = id then some m' else store k) ∧
         m'.id = m.id ∧ m'.createdAt = m.createdAt ∧
         (u.name = none → m'.name = m.name) ∧
         (u.birthDate = none → m'.birthDate = m.birthDate) ∧
         (u.deathDate = none → m'.deathDate = m.deathDate) ∧
         (u.birthPlace = none → m'.birthPlace = m.birthPlace) ∧
         (u.deathPlace = none → m'.deathPlace = m.deathPlace) ∧
         (u.notes = none → m'.notes = m.notes) ∧
         (u.photos = none → m'.photos = m.photos) ∧
         (∀ k, k ≠ id → (updateFamilyMember store id u).2 k = store k)) ∧
    (∀ (store : String → Option FamilyMember) (id : String) (u : FamilyMemberPatch),
       store id = none → updateFamilyMember store id u = (none, store)) ∧
    (∀ (store : String → Option Location) (id : String) (u : LocationPatch)
       (m : Location), store id = some m →
       ∃ m', updateLocation store id u =
           (some m', fun k => if k = id then some m' else store k) ∧
         m'.id = m.id ∧ m'.createdAt = m.createdAt ∧
         (u.name = none → m'.name = m.name) ∧
         (u.latitude = none → m'.latitude = m.latitude) ∧
         (u.longitude = none → m'.longitude = m.longitude) ∧
         (u.address = none → m'.address = m.address) ∧
         (u.locationType = none → m'.locationType = m.locationType) ∧
         (u.timeSpan = none → m'.timeSpan = m.timeSpan) ∧
         (u.memberCount = none → m'.memberCount = m.memberCount) ∧
         (∀ k, k ≠ id → (updateLocation store id u).2 k = store k)) ∧
    (∀ (store : String → Option Location) (id : String) (u : LocationPatch),
       store id = none → updateLocation store id u = (none, store)) ∧
    (∀ (store : String → Option Event) (id : String) (u : EventPatch)
       (m : Event), store id = some m →
       ∃ m', updateEvent store id u =
           (some m', fun k => if k = id then some m' else store k) ∧
         m'.id = m.id ∧ m'.createdAt = m.createdAt ∧
         (u.memberId = none → m'.memberId = m.memberId) ∧
         (u.locationId = none → m'.locationId = m.locationId) ∧
         (u.eventType = none → m'.eventType = m.eventType) ∧
         (u.eventDate = none → m'.eventDate = m.eventDate) ∧
         (u.description = none → m'.description = m.description) ∧
         (u.notes = none → m'.notes = m.notes) ∧
         (∀ k, k ≠ id → (updateEvent store id u).2 k = store k)) ∧
    (∀ (store : String → Option Event) (id : String) (u : EventPatch),
       store id = none → updateEvent store id u = (none, store)) := by
  refine ⟨?_, ?_, ?_, ?_, ?_, ?_⟩
  · intro store id u m hm
    refine ⟨patchFamilyMember m u, by simp [updateFamilyMember, hm], rfl, rfl,
      ?_, ?_, ?_, ?_, ?_, ?_, ?_, ?_⟩
    all_goals try (intro h; simp [patchFamilyMember, h])
    intro k hk
    simp [updateFamilyMember, hm, hk]
  · intro store id u h
    simp [updateFamilyMember, h]
  · intro store id u m hm
    refine ⟨patchLocation m u, by simp [updateLocation, hm], rfl, rfl,
      ?_, ?_, ?_, ?_, ?_, ?_, ?_, ?_⟩
    all_goals try (intro h; simp [patchLocation, h])
    intro k hk
    simp [updateLocation, hm, hk]
  · intro store id u h
    simp [updateLocation, h]
  · intro store id u m hm
    refine ⟨patchEvent m u, by simp [updateEvent, hm], rfl, rfl,
      ?_, ?_, ?_, ?_, ?_, ?_, ?_⟩
    all_goals try (intro h; simp [patchEvent, h])
    intro k hk
    simp [updateEvent, hm, hk]
  · intro store id u h
    simp [updateEvent, h]

/-- Witness for C10 at concrete one-entry stores, with empty partial
updates and both a present and an absent id for each collection. -/
theorem mem_storage_update_c10_witness :
    (∃ m', updateFamilyMember c10MemberStore "m1" {} =
        (some m', fun k => if k = "m1" then some m' else c10MemberStore k) ∧
      m'.id = c10Member.id ∧ m'.createdAt = c10Member.createdAt ∧
      (({} : FamilyMemberPatch).name = none → m'.name = c10Member.name) ∧
      (({} : FamilyMemberPatch).birthDate = none → m'.birthDate = c10Member.birthDate) ∧
      (({} : FamilyMemberPatch).deathDate = none → m'.deathDate = c10Member.deathDate) ∧
      (({} : FamilyMemberPatch).birthPlace = none → m'.birthPlace = c10Member.birthPlace) ∧
      (({} : FamilyMemberPatch).deathPlace = none → m'.deathPlace = c10Member.deathPlace) ∧
      (({} : FamilyMemberPatch).notes = none → m'.notes = c10Member.notes) ∧
      (({} : FamilyMemberPatch).photos = none → m'.photos = c10Member.photos) ∧
      (∀ k, k ≠ "m1" → (updateFamilyMember c10MemberStore "m1" {}).2 k = c10MemberStore k)) ∧
    updateFamilyMember c10MemberStore "zz" {} = (none, c10MemberStore) ∧
    (∃ m', updateLocation c10LocationStore "l1" {} =
        (some m', fun k => if k = "l1" then some m' else c10LocationStore k) ∧
      m'.id = c10Location.id ∧ m'.createdAt = c10Location.createdAt ∧
      (({} : LocationPatch).name = none → m'.name = c10Location.name) ∧
      (({} : LocationPatch).latitude = none → m'.latitude = c10Location.latitude) ∧
      (({} : LocationPatch).longitude = none → m'.longitude = c10Location.longitude) ∧
      (({} : LocationPatch).address = none → m'.address = c10Location.address) ∧
      (({} : LocationPatch).locationType = none → m'.locationType = c10Location.locationType) ∧
      (({} : LocationPatch).timeSpan = none → m'.timeSpan = c10Location.timeSpan) ∧
      (({} : LocationPatch).memberCount = none → m'.memberCount = c10Location.memberCount) ∧
      (∀ k, k ≠ "l1" → (updateLocation c10LocationStore "l1" {}).2 k = c10LocationStore k)) ∧
    updateLocation c10LocationStore "zz" {} = (none, c10LocationStore) ∧
    (∃ m', updateEvent c10EventStore "e1" {} =
        (some m', fun k => if k = "e1" then some m' else c10EventStore k) ∧
      m'.id = c10Event.id ∧ m'.createdAt = c10Event.createdAt ∧
      (({} : EventPatch).memberId = none → m'.memberId = c10Event.memberId) ∧
      (({} : EventPatch).locationId = none → m'.locationId = c10Event.locationId) ∧
      (({} : EventPatch).eventType = none → m'.eventType = c10Event.eventType) ∧
      (({} : EventPatch).eventDate = none → m'.eventDate = c10Event.eventDate) ∧
      (({} : EventPatch).description = none → m'.description = c10Event.description) ∧
      (({} : EventPatch).notes = none → m'.notes = c10Event.notes) ∧
      (∀ k, k ≠ "e1" → (updateEvent c10EventStore "e1" {}).2 k = c10EventStore k)) ∧
    updateEvent c10EventStore "zz" {} = (none, c10EventStore) :=
  ⟨mem_storage_update_c10.1 c10MemberStore "m1" {} c10Member (by decide),
   mem_storage_update_c10.2.1 c10MemberStore "zz" {} (by decide),
   mem_storage_update_c10.2.2.1 c10LocationStore "l1" {} c10Location (by decide),
   mem_storage_update_c10.2.2.2.1 c10LocationStore "zz" {} (by decide),
   mem_storage_update_c10.2.2.2.2.1 c10EventStore "e1" {} c10Event (by decide),
   mem_storage_update_c10.2.2.2.2.2 c10EventStore "zz" {} (by decide)⟩

end LineageAtlas
